import Mathlib

/-!
Verification of the to-do application (`app.py`): a SQLite-backed task store,
a remote priority-suggestion helper with a fixed fallback, and a per-rerun UI
layer. The store is modelled as an explicit state (schema flag, autoincrement
counter, list of rows in insertion order); each database helper becomes a pure
state transformer. The remote classification call is modelled by an explicit
outcome value covering the ways the call can succeed or fail.
-/

namespace TodoApp

/-! ### Byte ordering of SQLite TEXT values

SQLite compares TEXT with the BINARY collation: bytewise comparison of the
UTF-8 encodings. UTF-8 byte order coincides with codepoint order, so we
compare the codepoint lists of the two strings. -/

/-- Bytewise (codepoint) lexicographic `less or equal` on character lists. -/
def charListLe : List Char → List Char → Bool
  | [], _ => true
  | _ :: _, [] => false
  | a :: as, b :: bs =>
    if a.toNat < b.toNat then true
    else if b.toNat < a.toNat then false
    else charListLe as bs

/-- BINARY-collation comparison of two TEXT values. -/
def strLe (a b : String) : Bool := charListLe a.data b.data

/-! ### Data model

One table: `tasks(id PK autoincrement, title, notes, priority, done, created_at)`.
AUTOINCREMENT hands out `nextId` and increments it, never reusing ids. -/

/-- One row of the `tasks` table. `done` is stored as 0/1, modelled as `Bool`;
`created_at` is the ISO-format TEXT written by `add_task`. -/
structure Task where
  id : Nat
  title : String
  notes : String
  priority : String
  done : Bool
  created_at : String
deriving DecidableEq, Repr

/-- The columns returned by `get_tasks`:
`SELECT id, title, notes, priority, done`. -/
structure Row where
  id : Nat
  title : String
  notes : String
  priority : String
  done : Bool
deriving DecidableEq, Repr

/-- Projection performed by the SELECT column list of `get_tasks`. -/
def Task.toRow (t : Task) : Row :=
  { id := t.id, title := t.title, notes := t.notes, priority := t.priority,
    done := t.done }

/-- The persisted state of the database file: whether the `tasks` table
exists, the next AUTOINCREMENT id, and the rows in insertion order. -/
structure Store where
  schemaExists : Bool
  nextId : Nat
  tasks : List Task
deriving DecidableEq, Repr

/-- The database file before any table has been created. AUTOINCREMENT ids
start at 1. -/
def emptyStore : Store := { schemaExists := false, nextId := 1, tasks := [] }

/-- `init_db`: `CREATE TABLE IF NOT EXISTS tasks (...)`. Creates the schema
when absent and leaves existing rows untouched. -/
def init_db (s : Store) : Store := { s with schemaExists := true }

/-- `add_task`: `INSERT INTO tasks (title, notes, priority, created_at)
VALUES (?, ?, ?, ?)`. `id` comes from AUTOINCREMENT, `done` from its column
default 0; `created_at` is the ISO timestamp the caller captured. -/
def add_task (title notes priority created_at : String) (s : Store) : Store :=
  { s with
    tasks := s.tasks ++
      [{ id := s.nextId, title := title, notes := notes, priority := priority,
         done := false, created_at := created_at }],
    nextId := s.nextId + 1 }

/-- The ORDER BY key of `get_tasks`: `done` ascending, then `priority` DESC
(BINARY collation), then `created_at` DESC. The `done=0` branch of
`get_tasks` omits the `done` key, but on its result set every pair compares
equal on `done`, so the same comparator realises both ORDER BY clauses. -/
def taskLe (a b : Task) : Bool :=
  if a.done = b.done then
    if a.priority = b.priority then strLe b.created_at a.created_at
    else strLe b.priority a.priority
  else !a.done

/-- `taskLe` as a decidable relation, for use with `List.insertionSort`. -/
def taskOrder (a b : Task) : Prop := taskLe a b = true

instance : DecidableRel taskOrder := fun a b =>
  inferInstanceAs (Decidable (taskLe a b = true))

/-- `get_tasks(show_done)`: with `show_done` the query is
`SELECT ... FROM tasks ORDER BY done, priority DESC, created_at DESC`;
without it, `SELECT ... FROM tasks WHERE done=0 ORDER BY priority DESC,
created_at DESC`. -/
def get_tasks (show_done : Bool) (s : Store) : List Row :=
  if show_done then
    (List.insertionSort taskOrder s.tasks).map Task.toRow
  else
    (List.insertionSort taskOrder (s.tasks.filter fun t => !t.done)).map Task.toRow

/-- `set_done`: `UPDATE tasks SET done=? WHERE id=?`. -/
def set_done (task_id : Nat) (d : Bool) (s : Store) : Store :=
  { s with
    tasks := s.tasks.map fun t =>
      if t.id = task_id then { t with done := d } else t }

/-- `delete_task`: `DELETE FROM tasks WHERE id=?`. -/
def delete_task (task_id : Nat) (s : Store) : Store :=
  { s with tasks := s.tasks.filter fun t => !(t.id == task_id) }

/-- `update_priority`: `UPDATE tasks SET priority=? WHERE id=?`. -/
def update_priority (task_id : Nat) (priority : String) (s : Store) : Store :=
  { s with
    tasks := s.tasks.map fun t =>
      if t.id = task_id then { t with priority := priority } else t }

/-! ### Priority advisor -/

/-- The candidate label set sent to the classifier, and the options of both
priority select boxes: `['Low','Medium','High']`. -/
def priorityLabels : List String := ["Low", "Medium", "High"]

/-- Outcome of the HTTP round trip made by `ai_suggest_priority`:
the POST may raise (connection error or timeout), `response.json()` may
raise on a non-JSON body, or a JSON document arrives whose `labels` field
is absent (`none`) or holds a ranked list of label strings. -/
inductive RemoteOutcome where
  | networkError
  | timeout
  | invalidJson
  | json (labels : Option (List String))
deriving DecidableEq, Repr

/-- `ai_suggest_priority(title, notes)`: posts title and notes to the
zero-shot classifier; on a response with a `labels` field returns
`data["labels"][0]`; every raised exception (including the IndexError on an
empty `labels` list) is swallowed and, like a missing `labels` field, falls
through to `return "Medium"`. The title and notes only feed the prompt, so
the returned value depends only on the remote outcome. -/
def ai_suggest_priority (title : String) (notes : String) (o : RemoteOutcome) : String :=
  match title, notes, o with
  | _, _, RemoteOutcome.networkError => "Medium"
  | _, _, RemoteOutcome.timeout => "Medium"
  | _, _, RemoteOutcome.invalidJson => "Medium"
  | _, _, RemoteOutcome.json none => "Medium"
  | _, _, RemoteOutcome.json (some []) => "Medium"
  | _, _, RemoteOutcome.json (some (top :: _)) => top

/-! ### UI layer

Streamlit reruns the whole script on each widget event, and exactly one
button or widget change fires per rerun. The priority select boxes offer
exactly `['Low','Medium','High']`, so the value they deliver is one of the
three labels; we model that value by an enumeration. Clicking the suggest
button only displays the suggestion (the local rebinding of
`priority_select` does not survive to the rerun in which the add button
fires), so it persists nothing. -/

/-- A value of the three-option priority select box. -/
inductive Priority where
  | low
  | medium
  | high
deriving DecidableEq, Repr

/-- The label string a priority select box delivers. -/
def Priority.label : Priority → String
  | Priority.low => "Low"
  | Priority.medium => "Medium"
  | Priority.high => "High"

/-- One widget event of a rerun: the add button (with the form contents and
the timestamp captured at insertion), the suggest button (with the remote
outcome of the advisor call), a done checkbox toggle, a per-task priority
select box change, or a delete button. -/
inductive UIEvent where
  | addClick (title notes : String) (sel : Priority) (created_at : String)
  | suggestClick (title notes : String) (o : RemoteOutcome)
  | toggleDone (task_id : Nat) (checked : Bool)
  | selectPriority (task_id : Nat) (sel : Priority)
  | deleteClick (task_id : Nat)

/-- Effect of one rerun on the store. `addClick` is gated on a non-empty
title (`if st.button("Add task") and title`); `toggleDone` calls
`set_done(task_id, 1 if done_chk else 0)` (the `done_chk != bool(t_done)`
guard only skips a write that would not change the row); `selectPriority`
calls `update_priority` with the select box value; `suggestClick` persists
nothing. -/
def uiStep (s : Store) : UIEvent → Store
  | UIEvent.addClick title notes sel created_at =>
      if title = "" then s else add_task title notes sel.label created_at s
  | UIEvent.suggestClick _ _ _ => s
  | UIEvent.toggleDone task_id checked => set_done task_id checked s
  | UIEvent.selectPriority task_id sel => update_priority task_id sel.label s
  | UIEvent.deleteClick task_id => delete_task task_id s

/-- The store after startup: the script calls `init_db()` before serving
events. -/
def startStore : Store := init_db emptyStore

/-- The store after a sequence of reruns from startup. -/
def runEvents (es : List UIEvent) : Store := es.foldl uiStep startStore

/-! ### Rendering -/

/-- Python `list.index`: position of the first occurrence, raising
(modelled as `none`) when the value is absent. -/
def listIndex (x : String) : List String → Option Nat
  | [] => none
  | y :: ys => if y = x then some 0 else (listIndex x ys).map (· + 1)

/-- Rendering of one task row: title markdown, notes (or the placeholder
when falsy), and the select box index computed by
`['Low','Medium','High'].index(t_priority)` — which raises when the stored
priority is outside the three labels. -/
def renderTask (r : Row) : Option (String × String × Nat) :=
  (listIndex r.priority priorityLabels).map fun i =>
    (r.title, if r.notes = "" then "_no notes_" else r.notes, i)

/-- The render loop over the rows of `get_tasks`: the first row whose
priority is outside the label set raises, aborting the render. -/
def renderTasks : List Row → Option (List (String × String × Nat))
  | [] => some []
  | r :: rs =>
    match renderTask r, renderTasks rs with
    | some x, some xs => some (x :: xs)
    | _, _ => none

/-! ### Mutation sequences

The three UPDATE/DELETE helpers, as an instruction type, to quantify over
arbitrary sequences of mutations applied to the store. -/

/-- One call to `set_done`, `update_priority` or `delete_task`. -/
inductive MutOp where
  | setDoneOp (task_id : Nat) (d : Bool)
  | updatePriorityOp (task_id : Nat) (p : String)
  | deleteOp (task_id : Nat)

/-- Apply one mutation helper to the store. -/
def applyMut (s : Store) : MutOp → Store
  | MutOp.setDoneOp task_id d => set_done task_id d s
  | MutOp.updatePriorityOp task_id p => update_priority task_id p s
  | MutOp.deleteOp task_id => delete_task task_id s

/-! ### Order lemmas for the ORDER BY comparator -/

theorem char_toNat_inj {a b : Char} (h : a.toNat = b.toNat) : a = b := by
  have h2 := congrArg Char.ofNat h
  rwa [Char.ofNat_toNat, Char.ofNat_toNat] at h2

theorem charListLe_total : ∀ a b : List Char,
    charListLe a b = true ∨ charListLe b a = true
  | [], _ => Or.inl rfl
  | _ :: _, [] => Or.inr rfl
  | a :: as, b :: bs => by
    simp only [charListLe]
    rcases Nat.lt_trichotomy a.toNat b.toNat with h | h | h
    · left
      simp [h]
    · have h1 : ¬ a.toNat < b.toNat := by omega
      have h2 : ¬ b.toNat < a.toNat := by omega
      rcases charListLe_total as bs with ih | ih
      · left
        simp [h1, h2, ih]
      · right
        simp [h1, h2, ih]
    · right
      simp [h]

theorem charListLe_trans : ∀ a b c : List Char,
    charListLe a b = true → charListLe b c = true → charListLe a c = true
  | [], _, _ => fun _ _ => rfl
  | _ :: _, [], _ => fun hab _ => by simp [charListLe] at hab
  | _ :: _, _ :: _, [] => fun _ hbc => by simp [charListLe] at hbc
  | a :: as, b :: bs, c :: cs => fun hab hbc => by
    simp only [charListLe] at hab hbc ⊢
    split_ifs at hab hbc ⊢ <;>
      first
      | rfl
      | exact charListLe_trans as bs cs hab hbc
      | exact absurd hab (by decide)
      | exact absurd hbc (by decide)
      | (exfalso; omega)

theorem charListLe_antisymm : ∀ a b : List Char,
    charListLe a b = true → charListLe b a = true → a = b
  | [], [] => fun _ _ => rfl
  | [], _ :: _ => fun _ hba => by simp [charListLe] at hba
  | _ :: _, [] => fun hab _ => by simp [charListLe] at hab
  | a :: as, b :: bs => fun hab hba => by
    simp only [charListLe] at hab hba
    split_ifs at hab hba <;>
      first
      | exact absurd hab (by decide)
      | exact absurd hba (by decide)
      | (exfalso; omega)
      | (have hh : a = b := char_toNat_inj (by omega)
         have ht : as = bs := charListLe_antisymm as bs hab hba
         rw [hh, ht])

theorem strLe_total (a b : String) : strLe a b = true ∨ strLe b a = true :=
  charListLe_total a.data b.data

theorem strLe_trans {a b c : String} (h1 : strLe a b = true)
    (h2 : strLe b c = true) : strLe a c = true :=
  charListLe_trans a.data b.data c.data h1 h2

theorem strLe_antisymm {a b : String} (h1 : strLe a b = true)
    (h2 : strLe b a = true) : a = b :=
  String.ext (charListLe_antisymm a.data b.data h1 h2)

theorem taskLe_total (a b : Task) : taskOrder a b ∨ taskOrder b a := by
  unfold taskOrder taskLe
  by_cases hd : a.done = b.done
  · rw [if_pos hd, if_pos hd.symm]
    by_cases hp : a.priority = b.priority
    · rw [if_pos hp, if_pos hp.symm]
      exact strLe_total b.created_at a.created_at
    · rw [if_neg hp, if_neg (fun h => hp h.symm)]
      exact strLe_total b.priority a.priority
  · rw [if_neg hd, if_neg (fun h => hd h.symm)]
    cases ha : a.done
    · left; rfl
    · cases hb : b.done
      · right; rfl
      · exact absurd (ha.trans hb.symm) hd

theorem taskLe_trans (a b c : Task) (hab : taskOrder a b) (hbc : taskOrder b c) :
    taskOrder a c := by
  unfold taskOrder taskLe at hab hbc ⊢
  by_cases h1 : a.done = b.done
  · by_cases h2 : b.done = c.done
    · rw [if_pos h1] at hab
      rw [if_pos h2] at hbc
      rw [if_pos (h1.trans h2)]
      by_cases p1 : a.priority = b.priority
      · rw [if_pos p1] at hab
        by_cases p2 : b.priority = c.priority
        · rw [if_pos p2] at hbc
          rw [if_pos (p1.trans p2)]
          exact strLe_trans hbc hab
        · rw [if_neg p2] at hbc
          rw [if_neg (p1 ▸ p2)]
          rw [p1]
          exact hbc
      · rw [if_neg p1] at hab
        by_cases p2 : b.priority = c.priority
        · rw [if_neg (fun h : a.priority = c.priority => p1 (h.trans p2.symm))]
          rw [← p2]
          exact hab
        · rw [if_neg p2] at hbc
          by_cases pac : a.priority = c.priority
          · exact absurd (strLe_antisymm hbc (pac ▸ hab)).symm p2
          · rw [if_neg pac]
            exact strLe_trans hbc hab
    · rw [if_neg h2] at hbc
      have hbf : b.done = false := by
        cases hbv : b.done
        · rfl
        · rw [hbv] at hbc
          exact absurd hbc (by decide)
      have hac : ¬ a.done = c.done := fun h => h2 (h1.symm.trans h)
      rw [if_neg hac, h1, hbf]
      rfl
  · rw [if_neg h1] at hab
    have haf : a.done = false := by
      cases hav : a.done
      · rfl
      · rw [hav] at hab
        exact absurd hab (by decide)
    have hbt : b.done = true := by
      cases hbv : b.done
      · exact absurd (haf.trans hbv.symm) h1
      · rfl
    by_cases h2 : b.done = c.done
    · have hac : ¬ a.done = c.done := fun h => h1 (h.trans h2.symm)
      rw [if_neg hac, haf]
      rfl
    · rw [if_neg h2] at hbc
      rw [hbt] at hbc
      exact absurd hbc (by decide)

instance : IsTotal Task taskOrder := ⟨taskLe_total⟩

instance : IsTrans Task taskOrder := ⟨taskLe_trans⟩

/-! ### Helper lemmas about `get_tasks` -/

theorem get_tasks_true_perm (s : Store) :
    (get_tasks true s).Perm (s.tasks.map Task.toRow) := by
  simp only [get_tasks, if_pos]
  exact (List.perm_insertionSort taskOrder s.tasks).map Task.toRow

theorem mem_get_tasks {r : Row} {sd : Bool} {s : Store} :
    r ∈ get_tasks sd s ↔
      ∃ t, t ∈ s.tasks ∧ (sd = false → t.done = false) ∧ Task.toRow t = r := by
  cases sd with
  | false =>
    simp only [get_tasks, Bool.false_eq_true, if_false]
    constructor
    · intro hr
      rcases List.mem_map.mp hr with ⟨t, ht, hrt⟩
      have ht2 := (List.perm_insertionSort taskOrder _).subset ht
      rcases List.mem_filter.mp ht2 with ⟨htm, hdone⟩
      exact ⟨t, htm, fun _ => by simpa using hdone, hrt⟩
    · rintro ⟨t, htm, hdone, hrt⟩
      apply List.mem_map.mpr
      refine ⟨t, ?_, hrt⟩
      apply ((List.perm_insertionSort taskOrder _).mem_iff).mpr
      have hdf : t.done = false := by
        simp only [forall_const, eq_self_iff_true] at hdone
        exact hdone
      exact List.mem_filter.mpr ⟨htm, by simp [hdf]⟩
  | true =>
    simp only [get_tasks, if_pos]
    constructor
    · intro hr
      rcases List.mem_map.mp hr with ⟨t, ht, hrt⟩
      exact ⟨t, (List.perm_insertionSort taskOrder _).subset ht,
        fun h => absurd h (by simp), hrt⟩
    · rintro ⟨t, htm, _, hrt⟩
      exact List.mem_map.mpr ⟨t, ((List.perm_insertionSort taskOrder _).mem_iff).mpr htm, hrt⟩

theorem countP_eq_one_of_nodup_ids {l : List Task} {i : Nat}
    (hnd : (l.map Task.id).Nodup) (hmem : ∃ t ∈ l, t.id = i) :
    l.countP (fun t => t.id == i) = 1 := by
  induction l with
  | nil =>
    rcases hmem with ⟨t, ht, _⟩
    cases ht
  | cons a l ih =>
    rw [List.map_cons, List.nodup_cons] at hnd
    by_cases ha : a.id = i
    · rw [List.countP_cons_of_pos _ _ (by simp [ha])]
      have h0 : l.countP (fun t => t.id == i) = 0 := by
        apply List.countP_eq_zero.mpr
        intro t htl
        simp only [beq_iff_eq]
        intro hti
        exact hnd.1 ((hti.trans ha.symm) ▸ List.mem_map_of_mem Task.id htl)
      rw [h0]
    · rw [List.countP_cons_of_neg _ _ (by simp [ha])]
      apply ih hnd.2
      rcases hmem with ⟨t, htm, hti⟩
      cases htm with
      | head => exact absurd hti ha
      | tail _ h => exact ⟨t, h, hti⟩

/-! ### Preservation helpers -/

theorem priorityLabel_mem (p : Priority) : p.label ∈ priorityLabels := by
  cases p <;> simp [Priority.label, priorityLabels]

theorem uiStep_preserves_priorities {s : Store}
    (h : ∀ t ∈ s.tasks, t.priority ∈ priorityLabels) (e : UIEvent) :
    ∀ t ∈ (uiStep s e).tasks, t.priority ∈ priorityLabels := by
  cases e with
  | addClick title notes sel created_at =>
    simp only [uiStep]
    by_cases ht : title = ""
    · rw [if_pos ht]
      exact h
    · rw [if_neg ht]
      intro t htm
      rcases List.mem_append.mp htm with hold | hnew
      · exact h t hold
      · rcases List.mem_singleton.mp hnew with rfl
        exact priorityLabel_mem sel
  | suggestClick title notes o => exact h
  | toggleDone task_id checked =>
    intro t htm
    rcases List.mem_map.mp htm with ⟨t0, ht0, rfl⟩
    by_cases hid : t0.id = task_id
    · rw [if_pos hid]
      exact h t0 ht0
    · rw [if_neg hid]
      exact h t0 ht0
  | selectPriority task_id sel =>
    intro t htm
    rcases List.mem_map.mp htm with ⟨t0, ht0, rfl⟩
    by_cases hid : t0.id = task_id
    · rw [if_pos hid]
      exact priorityLabel_mem sel
    · rw [if_neg hid]
      exact h t0 ht0
  | deleteClick task_id =>
    intro t htm
    exact h t (List.mem_filter.mp htm).1

theorem foldl_uiStep_preserves_priorities {s : Store}
    (h : ∀ t ∈ s.tasks, t.priority ∈ priorityLabels) (es : List UIEvent) :
    ∀ t ∈ (es.foldl uiStep s).tasks, t.priority ∈ priorityLabels := by
  induction es generalizing s with
  | nil => exact h
  | cons e es ih => exact ih (uiStep_preserves_priorities h e)

theorem applyMut_immutable {s : Store} {op : MutOp} :
    ∀ t ∈ (applyMut s op).tasks, ∃ t0 ∈ s.tasks,
      t0.id = t.id ∧ t0.title = t.title ∧ t0.notes = t.notes ∧
        t0.created_at = t.created_at := by
  cases op with
  | setDoneOp task_id d =>
    intro t htm
    rcases List.mem_map.mp htm with ⟨t0, ht0, rfl⟩
    refine ⟨t0, ht0, ?_⟩
    by_cases hid : t0.id = task_id
    · rw [if_pos hid]
      exact ⟨rfl, rfl, rfl, rfl⟩
    · rw [if_neg hid]
      exact ⟨rfl, rfl, rfl, rfl⟩
  | updatePriorityOp task_id p =>
    intro t htm
    rcases List.mem_map.mp htm with ⟨t0, ht0, rfl⟩
    refine ⟨t0, ht0, ?_⟩
    by_cases hid : t0.id = task_id
    · rw [if_pos hid]
      exact ⟨rfl, rfl, rfl, rfl⟩
    · rw [if_neg hid]
      exact ⟨rfl, rfl, rfl, rfl⟩
  | deleteOp task_id =>
    intro t htm
    exact ⟨t, (List.mem_filter.mp htm).1, rfl, rfl, rfl, rfl⟩

theorem foldl_applyMut_immutable (ops : List MutOp) (s : Store) :
    ∀ t ∈ (ops.foldl applyMut s).tasks, ∃ t0 ∈ s.tasks,
      t0.id = t.id ∧ t0.title = t.title ∧ t0.notes = t.notes ∧
        t0.created_at = t.created_at := by
  induction ops generalizing s with
  | nil =>
    intro t htm
    exact ⟨t, htm, rfl, rfl, rfl, rfl⟩
  | cons op ops ih =>
    intro t htm
    rcases ih (applyMut s op) t htm with ⟨t1, ht1, h1⟩
    rcases applyMut_immutable t1 ht1 with ⟨t0, ht0, h0⟩
    exact ⟨t0, ht0, h0.1.trans h1.1, h0.2.1.trans h1.2.1,
      h0.2.2.1.trans h1.2.2.1, h0.2.2.2.trans h1.2.2.2⟩

/-! ### Render helpers -/

theorem map_eq_self_of_mem {l : List Task} {f : Task → Task}
    (h : ∀ t ∈ l, f t = t) : l.map f = l := by
  induction l with
  | nil => rfl
  | cons a l ih =>
    rw [List.map_cons, h a (List.mem_cons_self a l),
      ih fun t ht => h t (List.mem_cons_of_mem a ht)]

theorem listIndex_isSome_iff {x : String} {l : List String} :
    (listIndex x l).isSome = true ↔ x ∈ l := by
  induction l with
  | nil => simp [listIndex]
  | cons y ys ih =>
    by_cases h : y = x
    · simp [listIndex, h]
    · rw [listIndex, if_neg h]
      cases hli : listIndex x ys with
      | none =>
        rw [hli] at ih
        simp only [Option.map_none', Option.isSome_none] at ih ⊢
        simp [ih, Ne.symm h]
      | some n =>
        rw [hli] at ih
        simp only [Option.map_some', Option.isSome_some] at ih ⊢
        simp only [List.mem_cons, true_iff]
        exact Or.inr (ih.mp trivial)

theorem renderTask_isSome_iff {r : Row} :
    (renderTask r).isSome = true ↔ r.priority ∈ priorityLabels := by
  have he : (renderTask r).isSome = (listIndex r.priority priorityLabels).isSome := by
    unfold renderTask
    cases hli : listIndex r.priority priorityLabels <;> rfl
  rw [he]
  exact listIndex_isSome_iff

theorem renderTasks_cons (r : Row) (rs : List Row) :
    renderTasks (r :: rs) =
      match renderTask r, renderTasks rs with
      | some x, some xs => some (x :: xs)
      | _, _ => none := rfl

theorem renderTasks_isSome_iff {rows : List Row} :
    (renderTasks rows).isSome = true ↔
      ∀ r ∈ rows, r.priority ∈ priorityLabels := by
  induction rows with
  | nil => simp [renderTasks]
  | cons r rs ih =>
    rw [renderTasks_cons]
    cases hr : renderTask r with
    | none =>
      have hnp : ¬ r.priority ∈ priorityLabels := by
        rw [← renderTask_isSome_iff, hr]
        simp
      cases hrs : renderTasks rs <;>
        · apply iff_of_false (by simp)
          intro hall
          exact hnp (hall r (List.mem_cons_self r rs))
    | some x =>
      cases hrs : renderTasks rs with
      | none =>
        apply iff_of_false (by simp)
        intro hall
        have hsome : (renderTasks rs).isSome = true :=
          ih.mpr fun q hq => hall q (List.mem_cons_of_mem _ hq)
        rw [hrs] at hsome
        exact absurd hsome (by simp)
      | some xs =>
        have hrp : r.priority ∈ priorityLabels :=
          renderTask_isSome_iff.mp (by rw [hr]; rfl)
        have hrsp := ih.mp (by rw [hrs]; rfl)
        apply iff_of_true rfl
        intro q hq
        rcases List.mem_cons.mp hq with rfl | hq2
        · exact hrp
        · exact hrsp q hq2

/-! ### Claim theorems -/

/-- Claim C1: `get_tasks` returns the row projection of a permutation of the
visible tasks sorted by the ORDER BY key — `done` ascending (present only
when completed tasks are included; on the `done=0` result set it compares
equal everywhere), then the priority label descending in BINARY collation,
then `created_at` descending. Concretely, three undone tasks added as
A(Low), B(High), C(Medium) are listed by `get_tasks false` as C (Medium),
A (Low), B (High): descending lexical label order, not the rank
High > Medium > Low. -/
theorem get_tasks_lexical_order :
    (∀ (s : Store) (sd : Bool), ∃ ts : List Task,
        List.Sorted taskOrder ts ∧ get_tasks sd s = ts.map Task.toRow ∧
        ts.Perm (if sd then s.tasks else s.tasks.filter fun t => !t.done)) ∧
    (get_tasks false
        (add_task "C" "" "Medium" "2024-01-01T00:00:03"
          (add_task "B" "" "High" "2024-01-01T00:00:02"
            (add_task "A" "" "Low" "2024-01-01T00:00:01" startStore)))).map
        (fun r => (r.title, r.priority)) =
      [("C", "Medium"), ("A", "Low"), ("B", "High")] := by
  constructor
  · intro s sd
    cases sd with
    | false =>
      refine ⟨List.insertionSort taskOrder (s.tasks.filter fun t => !t.done),
        List.sorted_insertionSort taskOrder _, rfl, ?_⟩
      simpa using List.perm_insertionSort taskOrder _
    | true =>
      refine ⟨List.insertionSort taskOrder s.tasks,
        List.sorted_insertionSort taskOrder _, rfl, ?_⟩
      simpa using List.perm_insertionSort taskOrder _
  · decide

/-- Claim C2 counterexample: a well-formed response whose top-ranked label
is an arbitrary string outside the candidate set is returned verbatim by
`ai_suggest_priority`, so the result is not always one of the three
labels. -/
theorem ai_suggest_priority_escapes_set :
    ai_suggest_priority "t" "" (RemoteOutcome.json (some ["Urgent", "High"])) = "Urgent" ∧
    "Urgent" ∉ priorityLabels := by
  exact ⟨rfl, by decide⟩

/-- Claim C2 (amended): for every title and notes, the suggestion is one of
the three candidate labels whenever the remote call fails in any modelled
way or the top-ranked label of the response lies in the candidate set; a
top-ranked label outside the set is returned verbatim instead. -/
theorem ai_suggest_priority_in_set (title notes : String) (o : RemoteOutcome)
    (h : match o with
         | RemoteOutcome.json (some (top :: _)) => top ∈ priorityLabels
         | _ => True) :
    ai_suggest_priority title notes o ∈ priorityLabels := by
  cases o with
  | networkError =>
    show "Medium" ∈ priorityLabels
    decide
  | timeout =>
    show "Medium" ∈ priorityLabels
    decide
  | invalidJson =>
    show "Medium" ∈ priorityLabels
    decide
  | json labels =>
    cases labels with
    | none =>
      show "Medium" ∈ priorityLabels
      decide
    | some ls =>
      cases ls with
      | nil =>
        show "Medium" ∈ priorityLabels
        decide
      | cons top rest => exact h

/-- Witness for claim C2 (amended) at a concrete honest response. -/
theorem ai_suggest_priority_in_set_witness :
    ai_suggest_priority "write report" "due friday"
      (RemoteOutcome.json (some ["High", "Medium", "Low"])) ∈ priorityLabels :=
  ai_suggest_priority_in_set "write report" "due friday"
    (RemoteOutcome.json (some ["High", "Medium", "Low"]))
    (show "High" ∈ priorityLabels by decide)

/-- Claim C3: in every store state reachable from startup through the UI
operations (add form, suggest button, done checkbox, per-task priority
select box, delete button), every persisted task priority is one of the
three labels — the select boxes only offer the three labels and the
suggest handler persists nothing. -/
theorem reachable_priorities_valid (es : List UIEvent) :
    ∀ t ∈ (runEvents es).tasks, t.priority ∈ priorityLabels :=
  foldl_uiStep_preserves_priorities (by intro t ht; cases ht) es

/-- Witness for claim C3: the task persisted by a concrete add event has a
valid priority. -/
theorem reachable_priorities_valid_witness :
    ({ id := 1, title := "A", notes := "", priority := "High", done := false,
       created_at := "2024-01-01T00:00:00" } : Task).priority ∈ priorityLabels :=
  reachable_priorities_valid
    [UIEvent.addClick "A" "" Priority.high "2024-01-01T00:00:00"]
    { id := 1, title := "A", notes := "", priority := "High", done := false,
      created_at := "2024-01-01T00:00:00" } (by decide)

/-- Claim C4: `add_task` followed by `get_tasks true` yields exactly the
previous rows plus one new row whose title, notes and priority equal the
inputs, whose done flag is false, and whose id is the fresh AUTOINCREMENT
value, distinct from every existing id. -/
theorem add_task_then_list (s : Store) (title notes priority created_at : String)
    (htitle : title ≠ "") (hpriority : priority ∈ priorityLabels)
    (hfresh : ∀ t ∈ s.tasks, t.id < s.nextId) :
    (get_tasks true (add_task title notes priority created_at s)).Perm
      ({ id := s.nextId, title := title, notes := notes, priority := priority,
         done := false } :: get_tasks true s) ∧
    ∀ r ∈ get_tasks true s, r.id ≠ s.nextId := by
  constructor
  · have h1 := get_tasks_true_perm (add_task title notes priority created_at s)
    have h2 : (add_task title notes priority created_at s).tasks.map Task.toRow
        = s.tasks.map Task.toRow ++
          [{ id := s.nextId, title := title, notes := notes, priority := priority,
             done := false }] := by
      simp [add_task, Task.toRow]
    rw [h2] at h1
    refine h1.trans ((List.perm_append_singleton _ _).trans ?_)
    exact (get_tasks_true_perm s).symm.cons _
  · intro r hr
    rcases mem_get_tasks.mp hr with ⟨t, htm, _, rfl⟩
    exact Nat.ne_of_lt (hfresh t htm)

/-- Witness for claim C4 on the empty startup store. -/
theorem add_task_then_list_witness :
    ((get_tasks true (add_task "Buy milk" "2 liters" "High"
        "2024-05-01T10:00:00" startStore)).Perm
      ({ id := 1, title := "Buy milk", notes := "2 liters", priority := "High",
         done := false } :: get_tasks true startStore) ∧
    ∀ r ∈ get_tasks true startStore, r.id ≠ 1) :=
  add_task_then_list startStore "Buy milk" "2 liters" "High" "2024-05-01T10:00:00"
    (by decide) (by decide) (by decide)

/-- Claim C5: for every title and notes, each modelled failure of the
remote call — the POST raising a network error, the POST timing out, a
non-JSON response body, a JSON body without a labels field — makes
`ai_suggest_priority` return exactly "Medium"; the function is total, so
no exception reaches its caller. -/
theorem ai_suggest_priority_failure_default (title notes : String) :
    ai_suggest_priority title notes RemoteOutcome.networkError = "Medium" ∧
    ai_suggest_priority title notes RemoteOutcome.timeout = "Medium" ∧
    ai_suggest_priority title notes RemoteOutcome.invalidJson = "Medium" ∧
    ai_suggest_priority title notes (RemoteOutcome.json none) = "Medium" :=
  ⟨rfl, rfl, rfl, rfl⟩

/-- Claim C6: when the store holds an id (ids being unique, as the PRIMARY
KEY guarantees), after `set_done id true` the listing without completed
tasks never contains that id, while the listing with completed tasks
contains exactly one row with that id, and that row has done = true. -/
theorem set_done_true_then_list (s : Store) (i : Nat)
    (hmem : ∃ t ∈ s.tasks, t.id = i)
    (hnd : (s.tasks.map Task.id).Nodup) :
    (∀ r ∈ get_tasks false (set_done i true s), r.id ≠ i) ∧
    (get_tasks true (set_done i true s)).countP (fun r => r.id == i) = 1 ∧
    (∀ r ∈ get_tasks true (set_done i true s), r.id = i → r.done = true) := by
  refine ⟨?_, ?_, ?_⟩
  · intro r hr
    rcases mem_get_tasks.mp hr with ⟨t, htm, hdone, rfl⟩
    rcases List.mem_map.mp htm with ⟨t0, ht0, rfl⟩
    by_cases hid : t0.id = i
    · have hd := hdone rfl
      rw [if_pos hid] at hd
      simp at hd
    · rw [if_neg hid]
      exact hid
  · have h1 : (get_tasks true (set_done i true s)).countP (fun r => r.id == i)
        = ((set_done i true s).tasks.map Task.toRow).countP (fun r => r.id == i) :=
      (get_tasks_true_perm _).countP_eq _
    rw [h1, List.countP_map]
    have h2 : (set_done i true s).tasks
        = s.tasks.map fun t => if t.id = i then { t with done := true } else t := rfl
    rw [h2, List.countP_map, List.countP_congr ?_]
    · exact countP_eq_one_of_nodup_ids hnd hmem
    · intro t htm
      by_cases hid : t.id = i <;> simp [Function.comp, Task.toRow, hid]
  · intro r hr hrid
    rcases mem_get_tasks.mp hr with ⟨t, htm, _, rfl⟩
    rcases List.mem_map.mp htm with ⟨t0, ht0, rfl⟩
    by_cases hid : t0.id = i
    · rw [if_pos hid]
      rfl
    · rw [if_neg hid] at hrid ⊢
      exact absurd hrid hid

/-- Witness for claim C6 on a one-task store. -/
theorem set_done_true_then_list_witness :
    (∀ r ∈ get_tasks false (set_done 1 true
        (add_task "A" "" "Low" "2024-01-01T00:00:00" startStore)), r.id ≠ 1) ∧
    (get_tasks true (set_done 1 true
        (add_task "A" "" "Low" "2024-01-01T00:00:00" startStore))).countP
      (fun r => r.id == 1) = 1 ∧
    (∀ r ∈ get_tasks true (set_done 1 true
        (add_task "A" "" "Low" "2024-01-01T00:00:00" startStore)),
      r.id = 1 → r.done = true) :=
  set_done_true_then_list (add_task "A" "" "Low" "2024-01-01T00:00:00" startStore) 1
    (by decide) (by decide)

/-- Claim C7: deleting an id removes it from both listings, and every later
mutation of that id — set_done, update_priority or another delete — leaves
the whole store state unchanged, indistinguishable from a successful call
that matched no row. -/
theorem delete_task_permanent (s : Store) (i : Nat) :
    (∀ sd : Bool, ∀ r ∈ get_tasks sd (delete_task i s), r.id ≠ i) ∧
    (∀ d : Bool, set_done i d (delete_task i s) = delete_task i s) ∧
    (∀ p : String, update_priority i p (delete_task i s) = delete_task i s) ∧
    delete_task i (delete_task i s) = delete_task i s := by
  have hids : ∀ t ∈ (delete_task i s).tasks, ¬ t.id = i := by
    intro t ht
    have hpr := (List.mem_filter.mp ht).2
    simpa using hpr
  refine ⟨?_, ?_, ?_, ?_⟩
  · intro sd r hr
    rcases mem_get_tasks.mp hr with ⟨t, htm, _, rfl⟩
    exact hids t htm
  · intro d
    show { delete_task i s with
      tasks := (delete_task i s).tasks.map fun t =>
        if t.id = i then { t with done := d } else t } = delete_task i s
    rw [map_eq_self_of_mem fun t ht => if_neg (hids t ht)]
  · intro p
    show { delete_task i s with
      tasks := (delete_task i s).tasks.map fun t =>
        if t.id = i then { t with priority := p } else t } = delete_task i s
    rw [map_eq_self_of_mem fun t ht => if_neg (hids t ht)]
  · show { delete_task i s with
      tasks := (delete_task i s).tasks.filter fun t => !(t.id == i) }
      = delete_task i s
    rw [List.filter_eq_self.mpr fun t ht => by simpa using hids t ht]

/-- Witness for claim C7: a second mutation of a deleted id is the
identity on a concrete store. -/
theorem delete_task_permanent_witness :
    set_done 1 true (delete_task 1
        (add_task "A" "" "Low" "2024-01-01T00:00:00" startStore))
      = delete_task 1 (add_task "A" "" "Low" "2024-01-01T00:00:00" startStore) :=
  (delete_task_permanent
    (add_task "A" "" "Low" "2024-01-01T00:00:00" startStore) 1).2.1 true

/-- Claim C8: across any sequence of set_done, update_priority and
delete_task calls, every surviving task keeps the id, title, notes and
created_at it had before the sequence; set_done rewrites only the done
field of rows matching its id, update_priority only the priority field,
and both leave non-matching rows and all other fields untouched. -/
theorem mutations_change_only_their_field :
    (∀ (ops : List MutOp) (s : Store), ∀ t ∈ (ops.foldl applyMut s).tasks,
        ∃ t0 ∈ s.tasks, t0.id = t.id ∧ t0.title = t.title ∧ t0.notes = t.notes ∧
          t0.created_at = t.created_at) ∧
    (∀ (s : Store) (i : Nat) (d : Bool), ∀ t ∈ (set_done i d s).tasks,
        ∃ t0 ∈ s.tasks, t.id = t0.id ∧ t.title = t0.title ∧ t.notes = t0.notes ∧
          t.created_at = t0.created_at ∧ t.priority = t0.priority ∧
          t.done = if t0.id = i then d else t0.done) ∧
    (∀ (s : Store) (i : Nat) (p : String), ∀ t ∈ (update_priority i p s).tasks,
        ∃ t0 ∈ s.tasks, t.id = t0.id ∧ t.title = t0.title ∧ t.notes = t0.notes ∧
          t.created_at = t0.created_at ∧ t.done = t0.done ∧
          t.priority = if t0.id = i then p else t0.priority) := by
  refine ⟨foldl_applyMut_immutable, ?_, ?_⟩
  · intro s i d t htm
    rcases List.mem_map.mp htm with ⟨t0, ht0, rfl⟩
    refine ⟨t0, ht0, ?_⟩
    by_cases hid : t0.id = i <;> simp [hid]
  · intro s i p t htm
    rcases List.mem_map.mp htm with ⟨t0, ht0, rfl⟩
    refine ⟨t0, ht0, ?_⟩
    by_cases hid : t0.id = i <;> simp [hid]

/-- Witness for claim C8 on a concrete one-task store and mutation
sequence. -/
theorem mutations_change_only_their_field_witness :
    ∃ t0 ∈ (add_task "A" "" "Low" "2024-01-01T00:00:00" startStore).tasks,
      t0.id = 1 ∧ t0.title = "A" ∧ t0.notes = "" ∧
        t0.created_at = "2024-01-01T00:00:00" :=
  mutations_change_only_their_field.1 [MutOp.setDoneOp 1 true]
    (add_task "A" "" "Low" "2024-01-01T00:00:00" startStore)
    { id := 1, title := "A", notes := "", priority := "Low", done := true,
      created_at := "2024-01-01T00:00:00" } (by decide)

/-- Claim C9: `init_db` is idempotent — a second call changes nothing — and
a single call preserves every existing row and the id counter while
ensuring the schema exists. -/
theorem init_db_idempotent (s : Store) :
    init_db (init_db s) = init_db s ∧ (init_db s).tasks = s.tasks ∧
      (init_db s).nextId = s.nextId ∧ (init_db s).schemaExists = true :=
  ⟨rfl, rfl, rfl, rfl⟩

/-- Claim C10: the render loop over the listed rows succeeds exactly when
every row priority lies in the three-label set (the select-box index lookup
raises on any other value), and the store writes priorities without
validation, so an `update_priority` with an out-of-set string makes
rendering the task
list fail. -/
theorem render_total_iff_valid_priorities :
    (∀ rows : List Row, (renderTasks rows).isSome = true ↔
        ∀ r ∈ rows, r.priority ∈ priorityLabels) ∧
    renderTasks (get_tasks false (update_priority 1 "Urgent"
        (add_task "A" "" "Medium" "2024-01-01T00:00:00" startStore))) = none := by
  constructor
  · intro rows
    exact renderTasks_isSome_iff
  · decide

/-- Witness for claim C10 on a concrete valid row. -/
theorem render_total_iff_valid_priorities_witness :
    (renderTasks
      [({ id := 1, title := "A", notes := "", priority := "Medium",
          done := false } : Row)]).isSome = true :=
  (render_total_iff_valid_priorities.1 _).mpr (by decide)

end TodoApp
